import Mathlib

/-!
Verification of the synccli remote synchronization engine.

Shallow embedding of the Go sources:
  * `src/remote/ssh_client.go` — secure transport client (host-key handling,
    `FIleExists`),
  * the remote sync engine file (`SyncDirectory`, `calculateSyncPlan`,
    `executeSyncPlan`, `scanRemoteFiles`).

Modelling conventions:
  * Go `map[string]*FileInfo` inventories become association lists
    `List (String × FileInfo)` (Go maps have unique keys; where a proof needs
    that, it is an explicit `Nodup` hypothesis);
  * `time.Time` values become integers (an instant on a linear time line);
    Go's `t1.After(t2)` is `t2 < t1`;
  * remote shell commands are represented structurally (`RemoteCommand`)
    rather than as the formatted shell strings the Go code builds with
    `fmt.Sprintf`; the constructor arguments are exactly the data interpolated
    into the format string;
  * outcomes of I/O calls (SFTP transfers, remote commands) are supplied by
    oracle parameters, since the Go code only branches on `err != nil`.
-/

namespace Synccli

/-- `SyncDirection` from the sync engine: `SyncToRemote`, `SyncFromRemote`,
`SyncBoth` (iota constants 0, 1, 2). -/
inductive SyncDirection where
  | toRemote
  | fromRemote
  | both
deriving DecidableEq, Repr

/-- `SyncOptions` from the sync engine (all fields of the Go struct). -/
structure SyncOptions where
  direction : SyncDirection
  dryRun : Bool
  force : Bool
  verbose : Bool
  progress : Bool
  deleteExtra : Bool
deriving DecidableEq, Repr

/-- `FileInfo` from the sync engine: relative path, byte size, modification
time and directory flag; the optional hash is carried but never compared by
the planner. -/
structure FileInfo where
  path : String
  size : Int
  modTime : Int
  isDir : Bool
  hash : String
deriving DecidableEq, Repr

/-- A file inventory: the Go `map[string]*FileInfo` keyed by relative path,
modelled as an association list. -/
abbrev Inventory : Type := List (String × FileInfo)

/-- Go map lookup `remoteFiles[relPath]`: the entry stored under a key
(association lists built from a Go map have at most one entry per key). -/
def lookupFile (inv : Inventory) (relPath : String) : Option FileInfo :=
  (List.find? (fun e => e.1 == relPath) inv).map (·.2)

/-- `filepath.Join(base, rel)` as used by the planner. Go's `Join` also
lexically cleans the result; for the slash-free clean components produced by
the scanners the two coincide, and no claim depends on cleaning. -/
def joinPath (base rel : String) : String := base ++ "/" ++ rel

/-- `SyncItem` from the sync engine. Delete items leave `localPath` at the Go
zero value `""`, exactly as the source does. -/
structure SyncItem where
  localPath : String
  remotePath : String
  size : Int
  action : String
deriving DecidableEq, Repr

/-- `SyncPlan` from the sync engine: upload, download and delete collections. -/
structure SyncPlan where
  upload : List SyncItem
  download : List SyncItem
  delete : List SyncItem
deriving DecidableEq, Repr

/-- The upload decision of `calculateSyncPlan` for one local record:
absent remotely ⇒ upload; present and incremental ⇒ upload when the local
modification time is strictly newer or the sizes differ; present and
non-incremental ⇒ upload iff `force`. -/
def shouldUpload (incremental force : Bool) (localFile : FileInfo) :
    Option FileInfo → Bool
  | none => true
  | some remoteFile =>
      if incremental then
        decide (remoteFile.modTime < localFile.modTime) ||
          decide (localFile.size ≠ remoteFile.size)
      else force

/-- The download decision of `calculateSyncPlan` for one remote record
(mirror of `shouldUpload`, comparing from the remote side). -/
def shouldDownload (incremental force : Bool) (remoteFile : FileInfo) :
    Option FileInfo → Bool
  | none => true
  | some localFile =>
      if incremental then
        decide (localFile.modTime < remoteFile.modTime) ||
          decide (remoteFile.size ≠ localFile.size)
      else force

/-- Body of the upload loop of `calculateSyncPlan` for one local inventory
entry: directory records are skipped (`continue`); a qualifying record
produces its upload item. -/
def uploadItemFor (incremental force : Bool) (remoteFiles : Inventory)
    (localBase remoteBase : String) (e : String × FileInfo) : Option SyncItem :=
  if e.2.isDir then none
  else if shouldUpload incremental force e.2 (lookupFile remoteFiles e.1) then
    some { localPath := joinPath localBase e.1
           remotePath := joinPath remoteBase e.1
           size := e.2.size
           action := "upload" }
  else none

/-- Body of the download loop of `calculateSyncPlan` for one remote inventory
entry. -/
def downloadItemFor (incremental force : Bool) (localFiles : Inventory)
    (localBase remoteBase : String) (e : String × FileInfo) : Option SyncItem :=
  if shouldDownload incremental force e.2 (lookupFile localFiles e.1) then
    some { localPath := joinPath localBase e.1
           remotePath := joinPath remoteBase e.1
           size := e.2.size
           action := "download" }
  else none

/-- Body of the delete loop of `calculateSyncPlan` for one remote inventory
entry: a deletion is queued exactly when the relative path is absent from the
local inventory (`localPath` keeps the Go zero value). -/
def deleteItemFor (localFiles : Inventory) (remoteBase : String)
    (e : String × FileInfo) : Option SyncItem :=
  if (lookupFile localFiles e.1).isSome then none
  else
    some { localPath := ""
           remotePath := joinPath remoteBase e.1
           size := e.2.size
           action := "delete_remote" }

/-- The upload loop of `calculateSyncPlan`: runs only when the direction is
`SyncToRemote` or `SyncBoth`. -/
def planUploads (incremental : Bool) (opts : SyncOptions)
    (localFiles remoteFiles : Inventory) (localBase remoteBase : String) :
    List SyncItem :=
  if opts.direction = .toRemote ∨ opts.direction = .both then
    localFiles.filterMap
      (uploadItemFor incremental opts.force remoteFiles localBase remoteBase)
  else []

/-- The download loop of `calculateSyncPlan`: runs only when the direction is
`SyncFromRemote` or `SyncBoth`. -/
def planDownloads (incremental : Bool) (opts : SyncOptions)
    (localFiles remoteFiles : Inventory) (localBase remoteBase : String) :
    List SyncItem :=
  if opts.direction = .fromRemote ∨ opts.direction = .both then
    remoteFiles.filterMap
      (downloadItemFor incremental opts.force localFiles localBase remoteBase)
  else []

/-- The delete loop of `calculateSyncPlan`: only when `deleteExtra` is set and
the direction includes to-remote; queues a deletion for every remote record
absent from the local inventory. -/
def planDeletes (opts : SyncOptions)
    (localFiles remoteFiles : Inventory) (remoteBase : String) :
    List SyncItem :=
  if opts.deleteExtra &&
      (opts.direction = .toRemote ∨ opts.direction = .both : Bool) then
    remoteFiles.filterMap (deleteItemFor localFiles remoteBase)
  else []

/-- `calculateSyncPlan` from the sync engine: a pure function of the two
inventories, the direction/force/deleteExtra options and the configured
incremental flag (`rse.config.Incremental`). -/
def calculateSyncPlan (incremental : Bool) (opts : SyncOptions)
    (localFiles remoteFiles : Inventory) (localBase remoteBase : String) :
    SyncPlan :=
  { upload := planUploads incremental opts localFiles remoteFiles localBase remoteBase
    download := planDownloads incremental opts localFiles remoteFiles localBase remoteBase
    delete := planDeletes opts localFiles remoteFiles remoteBase }

/-! ## String helpers used by the scanners (Go standard-library behaviour) -/

/-- `strings.Contains` over character lists: the pattern occurs at some
position of the haystack (the empty pattern matches). -/
def listContains (pat : List Char) : List Char → Bool
  | [] => pat.isEmpty
  | c :: t => pat.isPrefixOf (c :: t) || listContains pat t

/-- `strings.Contains(s, pat)`. -/
def strContains (s pat : String) : Bool := listContains pat.data s.data

/-- `filepath.Match` restricted to the `*` and `?` metacharacters; Go's
character-class and escape syntax, and the rule that `*` stops at a path
separator, are not modelled (the function is only ever applied to base
names, which contain no separator). -/
def globMatch : List Char → List Char → Bool
  | [], [] => true
  | [], _ :: _ => false
  | '*' :: ps, [] => globMatch ps []
  | '*' :: ps, c :: cs => globMatch ps (c :: cs) || globMatch ('*' :: ps) cs
  | '?' :: _, [] => false
  | '?' :: ps, _ :: cs => globMatch ps cs
  | _ :: _, [] => false
  | p :: ps, c :: cs => (p == c) && globMatch ps cs
termination_by pat str => (str.length, pat.length)

/-- `strings.Split(s, sep)` over character lists, for the single-character
separators the engine uses (`\n`, `\t`, `/`): splits around every occurrence
of the separator, keeping empty fields, as Go does. -/
def splitChar (sep : Char) : List Char → List (List Char)
  | [] => [[]]
  | c :: t =>
      if c == sep then [] :: splitChar sep t
      else
        match splitChar sep t with
        | [] => [[c]]
        | h :: rest => (c :: h) :: rest

/-- `strings.Split(s, sep)` for a one-character separator. -/
def strSplit (s : String) (sep : Char) : List String :=
  (splitChar sep s.data).map fun cs => String.mk cs

/-- `strings.TrimSpace`: leading and trailing whitespace removed (the ASCII
whitespace of `Char.isWhitespace` covers the `find` output handled here). -/
def trimSpace (s : String) : String :=
  String.mk
    (((s.data.dropWhile Char.isWhitespace).reverse.dropWhile
        Char.isWhitespace).reverse)

/-- `filepath.Base`: the last slash-separated component (the Go corner cases
for empty and all-slash paths do not arise for scanner-produced relative
paths). -/
def baseName (path : String) : String :=
  match (strSplit path '/').getLast? with
  | some s => s
  | none => path

/-- `shouldExclude` from the sync engine: a path is excluded when its base
name glob-matches a configured pattern or the pattern occurs as a substring
of the path. -/
def shouldExclude (excludeList : List String) (path : String) : Bool :=
  excludeList.any fun pattern =>
    globMatch pattern.data (baseName path).data || strContains path pattern

/-- Leading digit run of a character list. -/
def takeDigits : List Char → List Char
  | [] => []
  | c :: cs => if c.isDigit then c :: takeDigits cs else []

/-- Numeric value of a digit run. -/
def digitsToNat (ds : List Char) : Nat :=
  ds.foldl (fun acc c => acc * 10 + (c.toNat - 48)) 0

/-- `fmt.Sscanf(s, "%d", &n)`: the leading optionally-signed decimal integer;
with no digits the scanned variable keeps its zero value. Also serves for
`int64(t)` after `fmt.Sscanf(s, "%f", &t)` on `find`'s `%T@` output
(`seconds.fraction`): truncation toward zero keeps exactly the digits before
the decimal point. -/
def scanInt (s : String) : Int :=
  match s.data with
  | '-' :: cs => - (digitsToNat (takeDigits cs) : Int)
  | cs => (digitsToNat (takeDigits cs) : Int)

/-! ## Remote inventory collection (`scanRemoteFiles`) -/

/-- One line of the remote `find` listing (`relPath<TAB>size<TAB>epoch`):
skipped when empty, when it does not split into exactly three tab-separated
fields, or when the relative path is excluded; otherwise parsed into a
`FileInfo` with `IsDir = false` and no hash. -/
def parseListingLine (excludeList : List String) (line : String) :
    Option (String × FileInfo) :=
  if line == "" then none
  else
    match strSplit line '\t' with
    | [relPath, sizeStr, timeStr] =>
        if shouldExclude excludeList relPath then none
        else some (relPath,
          { path := relPath, size := scanInt sizeStr,
            modTime := scanInt timeStr, isDir := false, hash := "" })
    | _ => none

/-- `scanRemoteFiles` from the sync engine, as a function of the outcome of
the remote `find` command: a failed command yields the empty inventory and
no error; a successful one is trimmed, split into lines and parsed
(`find -printf %P` emits each file once, so keys are unique). -/
def scanRemoteFiles (excludeList : List String)
    (cmdResult : Except String String) : Except String Inventory :=
  match cmdResult with
  | .error _ => .ok []
  | .ok output =>
      .ok ((strSplit (trimSpace output) '\n').filterMap
        (parseListingLine excludeList))

/-! ## Plan execution (`executeSyncPlan`) -/

/-- `SyncResult` from the sync engine. The wall-clock `Duration` field is not
modelled; the Chinese-language error message formats are paraphrased, one
message per failed item as in the source. -/
structure SyncResult where
  totalFiles : Nat
  uploadedFiles : Nat
  downloadFiles : Nat
  deletedFiles : Nat
  skippedFiles : Nat
  errorFiles : Nat
  totalSize : Int
  errors : List String
deriving DecidableEq, Repr

/-- A remote shell command issued through `ExecuteCommand`, kept structural:
the constructor arguments are the data the Go code interpolates into the
corresponding `fmt.Sprintf` format. -/
inductive RemoteCommand where
  | mkdirP (path : String)
  | findListing (path : String)
  | rmF (path : String)
deriving DecidableEq, Repr

/-- One call on the secure transport client. -/
inductive TransportOp where
  | execCommand (cmd : RemoteCommand)
  | uploadFile (localPath remotePath : String)
  | downloadFile (remotePath localPath : String)
deriving DecidableEq, Repr

/-- The upload loop of `executeSyncPlan`: one `UploadFile` call per item; a
failure appends one error message and increments `ErrorFiles`, a success
increments `UploadedFiles` and adds the item size to `TotalSize`; the loop
always continues to the next item. The oracle gives each call's outcome. -/
def runUploads (oracle : TransportOp → Bool) :
    List SyncItem → SyncResult → SyncResult × List TransportOp
  | [], r => (r, [])
  | item :: rest, r =>
      let op := TransportOp.uploadFile item.localPath item.remotePath
      let r1 :=
        if oracle op then
          { r with uploadedFiles := r.uploadedFiles + 1
                   totalSize := r.totalSize + item.size }
        else
          { r with errors := r.errors ++ ["upload failed: " ++ item.localPath]
                   errorFiles := r.errorFiles + 1 }
      let tail := runUploads oracle rest r1
      (tail.1, op :: tail.2)

/-- The download loop of `executeSyncPlan` (mirror of the upload loop with
`DownloadFile`). -/
def runDownloads (oracle : TransportOp → Bool) :
    List SyncItem → SyncResult → SyncResult × List TransportOp
  | [], r => (r, [])
  | item :: rest, r =>
      let op := TransportOp.downloadFile item.remotePath item.localPath
      let r1 :=
        if oracle op then
          { r with downloadFiles := r.downloadFiles + 1
                   totalSize := r.totalSize + item.size }
        else
          { r with errors := r.errors ++ ["download failed: " ++ item.remotePath]
                   errorFiles := r.errorFiles + 1 }
      let tail := runDownloads oracle rest r1
      (tail.1, op :: tail.2)

/-- The delete loop of `executeSyncPlan`: one `rm -f` remote command per
item; successes increment `DeletedFiles` (no size accounting). -/
def runDeletes (oracle : TransportOp → Bool) :
    List SyncItem → SyncResult → SyncResult × List TransportOp
  | [], r => (r, [])
  | item :: rest, r =>
      let op := TransportOp.execCommand (.rmF item.remotePath)
      let r1 :=
        if oracle op then
          { r with deletedFiles := r.deletedFiles + 1 }
        else
          { r with errors := r.errors ++ ["delete failed: " ++ item.remotePath]
                   errorFiles := r.errorFiles + 1 }
      let tail := runDeletes oracle rest r1
      (tail.1, op :: tail.2)

/-- `executeSyncPlan` from the sync engine: uploads, then downloads, then
deletions, threading the accumulating `SyncResult`; returns the final result,
the trace of transport calls issued, and the Go function's `error` return
(the source ends with an unconditional `return nil`). -/
def executeSyncPlan (oracle : TransportOp → Bool) (plan : SyncPlan)
    (result : SyncResult) : SyncResult × List TransportOp × Option String :=
  let u := runUploads oracle plan.upload result
  let d := runDownloads oracle plan.download u.1
  let x := runDeletes oracle plan.delete d.1
  (x.1, u.2 ++ d.2 ++ x.2, none)

/-! ## A whole sync run (`SyncDirectory`) -/

/-- `SyncDirectory` from the sync engine. Parameters that stand for the
outcomes of the I/O the source performs before planning: `connected` is
`sshClient.IsConnected()`; `localScan` the outcome of the Python-scanner
collaborator (`scanLocalFiles`, an external boundary in the design);
`mkdirOk` the outcome of `ensureRemoteDirectory`'s `mkdir -p` command;
`findResult` the outcome of the remote `find` listing command. `remotePath`
is taken already absolute (the source joins a relative one to the configured
remote base first). Returns the Go `(result, error)` pair together with the
trace of transport calls issued after the connectivity check; the wall-clock
duration is not modelled. -/
def syncDirectory (incremental : Bool) (excludeList : List String)
    (opts : SyncOptions) (connected : Bool)
    (localScan : Except String Inventory) (mkdirOk : Bool)
    (findResult : Except String String) (oracle : TransportOp → Bool)
    (localPath remotePath : String) :
    Except String (SyncResult × List TransportOp) :=
  if !connected then .error "SSH not connected"
  else if !mkdirOk then .error "failed to create remote directory"
  else
    match localScan with
    | .error e => .error ("failed to scan local files: " ++ e)
    | .ok localFiles =>
        match scanRemoteFiles excludeList findResult with
        | .error e => .error ("failed to scan remote files: " ++ e)
        | .ok remoteFiles =>
            let plan := calculateSyncPlan incremental opts localFiles
              remoteFiles localPath remotePath
            let setupTrace : List TransportOp :=
              [.execCommand (.mkdirP remotePath),
               .execCommand (.findListing remotePath)]
            let result0 : SyncResult :=
              { totalFiles := plan.upload.length + plan.download.length +
                  plan.delete.length
                uploadedFiles := 0, downloadFiles := 0, deletedFiles := 0
                skippedFiles := 0, errorFiles := 0, totalSize := 0
                errors := [] }
            if opts.dryRun then .ok (result0, setupTrace)
            else
              let ex := executeSyncPlan oracle plan result0
              match ex.2.2 with
              | some e => .error e
              | none => .ok (ex.1, setupTrace ++ ex.2.1)

/-! ## Host-key verification (`ssh_client.go`) -/

/-- One line of the known-hosts store: a host pattern and its key line. -/
structure HostEntry where
  host : String
  key : String
deriving DecidableEq, Repr

/-- Outcome of an `ssh.HostKeyCallback`: `nil` or an error message. -/
inductive CallbackResult where
  | ok
  | fail (msg : String)
deriving DecidableEq, Repr

/-- Modelled from the behaviour of `golang.org/x/crypto/ssh/knownhosts.New`'s
callback over the entries of the known-hosts file: an entry matching host and
key accepts; an entry for the host with a different key fails with the
library's `KeyError` message `"knownhosts: key mismatch"`; a host with no
entry fails with its `"knownhosts: key is unknown"` message. Neither message
contains the substring `"no hostkey found"` that `wrapHostKeyCallback` tests
for. -/
def knownHostsCallback (store : List HostEntry) (hostname keyLine : String) :
    CallbackResult :=
  if store.any fun e => e.host == hostname && e.key == keyLine then .ok
  else if store.any fun e => e.host == hostname then
    .fail "knownhosts: key mismatch"
  else .fail "knownhosts: key is unknown"

/-- `wrapHostKeyCallback` from `ssh_client.go`, applied to the inner
callback's result; returns the wrapped callback's outcome and the known-hosts
store after the call (`addOk` is the outcome of `addHostKey`'s file append).
Mirrors the source control flow exactly: an inner error whose message
contains "no hostkey found" triggers `addHostKey` and then returns the
original error; every other path — success, or any other inner error,
including a key mismatch — reaches the final `return nil`. -/
def wrapHostKeyCallback (store : List HostEntry) (hostname keyLine : String)
    (addOk : Bool) (inner : CallbackResult) : CallbackResult × List HostEntry :=
  match inner with
  | .ok => (.ok, store)
  | .fail msg =>
      if strContains msg "no hostkey found" then
        if addOk then (.fail msg, store ++ [{ host := hostname, key := keyLine }])
        else (.fail "failed to add host key", store)
      else (.ok, store)

/-- The strict host-key check as `createHostKeyCallback` composes it when
`StrictHostCheck` is set: the wrapped callback around the known-hosts
verification, with the file append succeeding. -/
def strictHostKeyCheck (store : List HostEntry) (hostname keyLine : String) :
    CallbackResult × List HostEntry :=
  wrapHostKeyCallback store hostname keyLine true
    (knownHostsCallback store hostname keyLine)

/-! ## Remote stat (`FIleExists`) -/

/-- Outcome of `sftpClient.Stat`: success, or an error that either is or is
not an `os.IsNotExist` error. -/
inductive StatResult where
  | found
  | statError (msg : String) (isNotExist : Bool)
deriving DecidableEq, Repr

/-- `FIleExists` from `ssh_client.go` (source spelling kept): mirrors the
source exactly — a not-exist stat error returns `(false, the error)`; any
other stat error, like a successful stat, falls through to
`return true, nil`. -/
def FIleExists (connected : Bool) (stat : StatResult) : Bool × Option String :=
  if !connected then (false, some "ssh is null")
  else
    match stat with
    | .found => (true, none)
    | .statError msg isNotExist =>
        if isNotExist then (false, some msg) else (true, none)

/-! ## Derived specification predicates -/

/-- Identical contents of two inventories: every entry of either side has a
counterpart stored under the same relative path with equal size and equal
modification time. -/
def identicalInventories (l r : Inventory) : Prop :=
  (∀ e ∈ l, ∃ g, lookupFile r e.1 = some g ∧
      e.2.size = g.size ∧ e.2.modTime = g.modTime) ∧
  (∀ e ∈ r, ∃ f, lookupFile l e.1 = some f ∧
      f.size = e.2.size ∧ f.modTime = e.2.modTime)

/-- Number of upload items whose transfer call the oracle fails. -/
def uploadFailures (oracle : TransportOp → Bool) (items : List SyncItem) : Nat :=
  (items.filter fun it => !oracle (.uploadFile it.localPath it.remotePath)).length

/-- Number of download items whose transfer call the oracle fails. -/
def downloadFailures (oracle : TransportOp → Bool) (items : List SyncItem) : Nat :=
  (items.filter fun it => !oracle (.downloadFile it.remotePath it.localPath)).length

/-- Number of delete items whose remote command the oracle fails. -/
def deleteFailures (oracle : TransportOp → Bool) (items : List SyncItem) : Nat :=
  (items.filter fun it => !oracle (.execCommand (.rmF it.remotePath))).length

/-! ## Helper lemmas -/

theorem joinPath_right_inj {base r1 r2 : String}
    (h : joinPath base r1 = joinPath base r2) : r1 = r2 := by
  have h2 := congrArg String.data h
  simp only [joinPath] at h2
  have h3 : (base ++ "/").data ++ r1.data = (base ++ "/").data ++ r2.data := h2
  exact String.ext (List.append_cancel_left h3)

theorem lookupFile_isSome_of_mem {l : Inventory} {e : String × FileInfo}
    (h : e ∈ l) : (lookupFile l e.1).isSome = true := by
  unfold lookupFile
  have hfind : (List.find? (fun x => x.1 == e.1) l).isSome = true := by
    rw [List.find?_isSome]; exact ⟨e, h, by simp⟩
  obtain ⟨v, hv⟩ := Option.isSome_iff_exists.mp hfind
  rw [hv]; rfl

theorem entry_unique {l : Inventory} (hnd : (List.map Prod.fst l).Nodup)
    {p : String} {f g : FileInfo} (hf : (p, f) ∈ l) (hg : (p, g) ∈ l) :
    f = g := by
  have h := List.inj_on_of_nodup_map hnd hf hg rfl
  exact congrArg Prod.snd h

theorem uploadItemFor_eq_some_iff {incremental force : Bool} {r : Inventory}
    {lb rb : String} {e : String × FileInfo} {it : SyncItem} :
    uploadItemFor incremental force r lb rb e = some it ↔
      e.2.isDir = false ∧
      shouldUpload incremental force e.2 (lookupFile r e.1) = true ∧
      it = { localPath := joinPath lb e.1, remotePath := joinPath rb e.1,
             size := e.2.size, action := "upload" } := by
  cases hd : e.2.isDir <;>
    cases hs : shouldUpload incremental force e.2 (lookupFile r e.1) <;>
      simp [uploadItemFor, hd, hs, eq_comm]

theorem downloadItemFor_eq_some_iff {incremental force : Bool} {l : Inventory}
    {lb rb : String} {e : String × FileInfo} {it : SyncItem} :
    downloadItemFor incremental force l lb rb e = some it ↔
      shouldDownload incremental force e.2 (lookupFile l e.1) = true ∧
      it = { localPath := joinPath lb e.1, remotePath := joinPath rb e.1,
             size := e.2.size, action := "download" } := by
  cases hs : shouldDownload incremental force e.2 (lookupFile l e.1) <;>
    simp [downloadItemFor, hs, eq_comm]

theorem deleteItemFor_eq_some_iff {l : Inventory} {rb : String}
    {e : String × FileInfo} {it : SyncItem} :
    deleteItemFor l rb e = some it ↔
      lookupFile l e.1 = none ∧
      it = { localPath := "", remotePath := joinPath rb e.1,
             size := e.2.size, action := "delete_remote" } := by
  cases hs : lookupFile l e.1 <;> simp [deleteItemFor, hs, eq_comm]

theorem mem_planUploads_iff {incremental : Bool} {opts : SyncOptions}
    {l r : Inventory} {lb rb : String} {it : SyncItem} :
    it ∈ planUploads incremental opts l r lb rb ↔
      ((opts.direction = .toRemote ∨ opts.direction = .both) ∧
        ∃ e ∈ l, uploadItemFor incremental opts.force r lb rb e = some it) := by
  unfold planUploads
  split
  · next h => simp only [List.mem_filterMap, h, true_and]
  · next h => simp [h]

theorem mem_planDownloads_iff {incremental : Bool} {opts : SyncOptions}
    {l r : Inventory} {lb rb : String} {it : SyncItem} :
    it ∈ planDownloads incremental opts l r lb rb ↔
      ((opts.direction = .fromRemote ∨ opts.direction = .both) ∧
        ∃ e ∈ r, downloadItemFor incremental opts.force l lb rb e = some it) := by
  unfold planDownloads
  split
  · next h => simp only [List.mem_filterMap, h, true_and]
  · next h => simp [h]

theorem mem_planDeletes_iff {opts : SyncOptions}
    {l r : Inventory} {rb : String} {it : SyncItem} :
    it ∈ planDeletes opts l r rb ↔
      ((opts.deleteExtra = true ∧
          (opts.direction = .toRemote ∨ opts.direction = .both)) ∧
        ∃ e ∈ r, deleteItemFor l rb e = some it) := by
  unfold planDeletes
  split
  · next h =>
    simp only [Bool.and_eq_true, decide_eq_true_eq] at h
    simp only [List.mem_filterMap, h, true_and]
  · next h =>
    simp only [Bool.and_eq_true, decide_eq_true_eq] at h
    simp only [List.not_mem_nil, false_iff, not_and]
    intro hflags _
    exact absurd hflags h

theorem runUploads_spec (oracle : TransportOp → Bool) (items : List SyncItem)
    (r : SyncResult) :
    (runUploads oracle items r).1.errorFiles =
        r.errorFiles + uploadFailures oracle items ∧
      (runUploads oracle items r).1.errors.length =
        r.errors.length + uploadFailures oracle items ∧
      (runUploads oracle items r).1.skippedFiles = r.skippedFiles ∧
      (runUploads oracle items r).2.length = items.length := by
  induction items generalizing r with
  | nil => simp [runUploads, uploadFailures]
  | cons item rest ih =>
    by_cases h : oracle (TransportOp.uploadFile item.localPath item.remotePath)
    · have ih1 := ih { r with uploadedFiles := r.uploadedFiles + 1,
                              totalSize := r.totalSize + item.size }
      simp only [runUploads, h, if_true, uploadFailures, List.filter_cons,
        Bool.not_true, Bool.false_eq_true, if_false, List.length_cons] at ih1 ⊢
      omega
    · have ih1 := ih { r with
          errors := r.errors ++ ["upload failed: " ++ item.localPath],
          errorFiles := r.errorFiles + 1 }
      simp only [runUploads, h, if_false, uploadFailures, List.filter_cons,
        Bool.not_false, Bool.false_eq_true, if_true, List.length_cons,
        List.length_append, List.length_singleton, List.length_nil] at ih1 ⊢
      omega

theorem runDownloads_spec (oracle : TransportOp → Bool) (items : List SyncItem)
    (r : SyncResult) :
    (runDownloads oracle items r).1.errorFiles =
        r.errorFiles + downloadFailures oracle items ∧
      (runDownloads oracle items r).1.errors.length =
        r.errors.length + downloadFailures oracle items ∧
      (runDownloads oracle items r).1.skippedFiles = r.skippedFiles ∧
      (runDownloads oracle items r).2.length = items.length := by
  induction items generalizing r with
  | nil => simp [runDownloads, downloadFailures]
  | cons item rest ih =>
    by_cases h : oracle (TransportOp.downloadFile item.remotePath item.localPath)
    · have ih1 := ih { r with downloadFiles := r.downloadFiles + 1,
                              totalSize := r.totalSize + item.size }
      simp only [runDownloads, h, if_true, downloadFailures, List.filter_cons,
        Bool.not_true, Bool.false_eq_true, if_false, List.length_cons] at ih1 ⊢
      omega
    · have ih1 := ih { r with
          errors := r.errors ++ ["download failed: " ++ item.remotePath],
          errorFiles := r.errorFiles + 1 }
      simp only [runDownloads, h, if_false, downloadFailures, List.filter_cons,
        Bool.not_false, Bool.false_eq_true, if_true, List.length_cons,
        List.length_append, List.length_singleton, List.length_nil] at ih1 ⊢
      omega

theorem runDeletes_spec (oracle : TransportOp → Bool) (items : List SyncItem)
    (r : SyncResult) :
    (runDeletes oracle items r).1.errorFiles =
        r.errorFiles + deleteFailures oracle items ∧
      (runDeletes oracle items r).1.errors.length =
        r.errors.length + deleteFailures oracle items ∧
      (runDeletes oracle items r).1.skippedFiles = r.skippedFiles ∧
      (runDeletes oracle items r).2.length = items.length := by
  induction items generalizing r with
  | nil => simp [runDeletes, deleteFailures]
  | cons item rest ih =>
    by_cases h : oracle (TransportOp.execCommand (.rmF item.remotePath))
    · have ih1 := ih { r with deletedFiles := r.deletedFiles + 1 }
      simp only [runDeletes, h, if_true, deleteFailures, List.filter_cons,
        Bool.not_true, Bool.false_eq_true, if_false, List.length_cons] at ih1 ⊢
      omega
    · have ih1 := ih { r with
          errors := r.errors ++ ["delete failed: " ++ item.remotePath],
          errorFiles := r.errorFiles + 1 }
      simp only [runDeletes, h, if_false, deleteFailures, List.filter_cons,
        Bool.not_false, Bool.false_eq_true, if_true, List.length_cons,
        List.length_append, List.length_singleton, List.length_nil] at ih1 ⊢
      omega

theorem executeSyncPlan_skippedFiles (oracle : TransportOp → Bool)
    (plan : SyncPlan) (r : SyncResult) :
    (executeSyncPlan oracle plan r).1.skippedFiles = r.skippedFiles := by
  unfold executeSyncPlan
  rw [(runDeletes_spec oracle plan.delete _ ).2.2.1,
    (runDownloads_spec oracle plan.download _).2.2.1,
    (runUploads_spec oracle plan.upload _).2.2.1]

/-! ## Claim theorems -/

/-- Claim C1 (code bug, evaluated at the failing input): with strict host
checking, a host key conflicting with the stored entry for the same host is
NOT rejected — the inner known-hosts callback reports a key mismatch, whose
message does not contain "no hostkey found", so `wrapHostKeyCallback` falls
through to its final `return nil` and accepts the connection. Only the
store-left-unmodified half of the claim holds. -/
theorem hostkey_conflict_accepted_store_unchanged :
    strictHostKeyCheck [{ host := "example.com:22", key := "ssh-ed25519 KEYONE" }]
        "example.com:22" "ssh-ed25519 KEYTWO" =
      (.ok, [{ host := "example.com:22", key := "ssh-ed25519 KEYONE" }]) := by
  decide

/-- Claim C2 (code bug, evaluated at the failing input): with strict host
checking, connecting to a host with no known-hosts entry succeeds but
appends NOTHING to the store — the library's unknown-host error message
`"knownhosts: key is unknown"` does not contain the `"no hostkey found"`
substring `wrapHostKeyCallback` tests for, so the trust-on-first-use append
branch is dead code and the error falls through to the final `return nil`.
The appends-exactly-one-entry half of the claim fails. -/
theorem hostkey_unknown_host_accepted_nothing_appended :
    strictHostKeyCheck [] "example.com:22" "ssh-ed25519 KEYONE" =
      (.ok, []) := by
  decide

/-- Claim C3 counterexample: with identical local and remote inventories,
direction to-remote, incremental off and force on, the planner queues an
upload — the plan is not empty for every flag combination. -/
theorem identical_inventories_force_plan_nonempty :
    (calculateSyncPlan false
        { direction := .toRemote, dryRun := false, force := true,
          verbose := false, progress := false, deleteExtra := false }
        [("a.txt", { path := "a.txt", size := 1, modTime := 100,
                     isDir := false, hash := "" })]
        [("a.txt", { path := "a.txt", size := 1, modTime := 100,
                     isDir := false, hash := "" })]
        "/local" "/remote").upload ≠ [] := by
  decide

/-- Claim C5 counterexample: in bidirectional incremental mode, a path whose
sizes disagree between the two sides is queued for BOTH upload and download,
so a sync item (identified by its path) can appear in two of the plan's
collections. -/
theorem upload_download_overlap :
    (let plan := calculateSyncPlan true
        { direction := .both, dryRun := false, force := false,
          verbose := false, progress := false, deleteExtra := false }
        [("a.txt", { path := "a.txt", size := 1, modTime := 100,
                     isDir := false, hash := "" })]
        [("a.txt", { path := "a.txt", size := 2, modTime := 100,
                     isDir := false, hash := "" })]
        "/local" "/remote"
     ∃ u ∈ plan.upload, ∃ d ∈ plan.download, u.remotePath = d.remotePath) := by
  decide

/-- Claim C7: when the remote listing command fails (missing or unreadable
remote directory), `scanRemoteFiles` returns an empty inventory and no
error, never failing the run. -/
theorem scanRemoteFiles_error_empty (excl : List String) (e : String) :
    scanRemoteFiles excl (.error e) = .ok [] := rfl

/-- Claim C8: for every plan and every pattern of per-item outcomes, the
executor issues one transport call per plan item (it never aborts early),
each failure adds exactly one to the error counter and one message to the
error list, and the executor itself returns no error. -/
theorem executor_swallows_failures (oracle : TransportOp → Bool)
    (plan : SyncPlan) (r0 : SyncResult) :
    (executeSyncPlan oracle plan r0).2.2 = none ∧
      (executeSyncPlan oracle plan r0).2.1.length =
        plan.upload.length + plan.download.length + plan.delete.length ∧
      (executeSyncPlan oracle plan r0).1.errorFiles =
        r0.errorFiles + (uploadFailures oracle plan.upload +
          downloadFailures oracle plan.download +
          deleteFailures oracle plan.delete) ∧
      (executeSyncPlan oracle plan r0).1.errors.length =
        r0.errors.length + (uploadFailures oracle plan.upload +
          downloadFailures oracle plan.download +
          deleteFailures oracle plan.delete) := by
  have hu := runUploads_spec oracle plan.upload r0
  have hd := runDownloads_spec oracle plan.download
    (runUploads oracle plan.upload r0).1
  have hx := runDeletes_spec oracle plan.delete
    (runDownloads oracle plan.download (runUploads oracle plan.upload r0).1).1
  simp only [executeSyncPlan, List.length_append]
  refine ⟨trivial, ?_, ?_, ?_⟩ <;> omega

/-- Claim C10: for a connected client, `FIleExists` reports a non-existent
remote path as `(false, the stat error)` — an error for the normal absent
case — and reports `(true, nil)` whenever the stat fails with any other
error, as well as on success. -/
theorem FIleExists_notexist_error_other_true (msg : String) :
    FIleExists true (.statError msg true) = (false, some msg) ∧
      FIleExists true (.statError msg false) = (true, none) := by
  exact ⟨rfl, rfl⟩

/-- Claim C3 (amended): for inventories with identical contents the planner
produces empty upload, download and delete sets for every direction and
delete-extra flag, provided incremental mode is on or force is off — with
incremental off and force on, every shared path is queued despite being
identical. -/
theorem plan_empty_of_identical (incremental : Bool) (opts : SyncOptions)
    (l r : Inventory) (lb rb : String)
    (hid : identicalInventories l r)
    (hmode : incremental = true ∨ opts.force = false) :
    calculateSyncPlan incremental opts l r lb rb =
      { upload := [], download := [], delete := [] } := by
  obtain ⟨hlr, hrl⟩ := hid
  have hup : ∀ e ∈ l, uploadItemFor incremental opts.force r lb rb e = none := by
    intro e he
    obtain ⟨g, hg, hsize, htime⟩ := hlr e he
    unfold uploadItemFor
    by_cases hd : e.2.isDir
    · simp [hd]
    · have hsu : shouldUpload incremental opts.force e.2 (lookupFile r e.1) = false := by
        rw [hg]
        cases hinc : incremental with
        | true => simp [shouldUpload, htime, hsize]
        | false =>
          rcases hmode with hm | hm
          · exact absurd hinc (by simp [hm])
          · simp [shouldUpload, hm]
      simp [hd, hsu]
  have hdown : ∀ e ∈ r, downloadItemFor incremental opts.force l lb rb e = none := by
    intro e he
    obtain ⟨f, hf, hsize, htime⟩ := hrl e he
    unfold downloadItemFor
    have hsd : shouldDownload incremental opts.force e.2 (lookupFile l e.1) = false := by
      rw [hf]
      cases hinc : incremental with
      | true => simp [shouldDownload, htime, hsize]
      | false =>
        rcases hmode with hm | hm
        · exact absurd hinc (by simp [hm])
        · simp [shouldDownload, hm]
    simp [hsd]
  have hdel : ∀ e ∈ r, deleteItemFor l rb e = none := by
    intro e he
    obtain ⟨f, hf, -, -⟩ := hrl e he
    unfold deleteItemFor
    simp [hf]
  have h1 : planUploads incremental opts l r lb rb = [] := by
    unfold planUploads
    split
    · rw [List.filterMap_eq_nil_iff]; exact hup
    · rfl
  have h2 : planDownloads incremental opts l r lb rb = [] := by
    unfold planDownloads
    split
    · rw [List.filterMap_eq_nil_iff]; exact hdown
    · rfl
  have h3 : planDeletes opts l r rb = [] := by
    unfold planDeletes
    split
    · rw [List.filterMap_eq_nil_iff]; exact hdel
    · rfl
  unfold calculateSyncPlan
  rw [h1, h2, h3]

/-- Witness for the amended C3 at a concrete input: one identical file on
both sides, bidirectional incremental sync with delete-extra set. -/
theorem plan_empty_of_identical_witness :
    calculateSyncPlan true
        { direction := .both, dryRun := false, force := false,
          verbose := false, progress := false, deleteExtra := true }
        [("a.txt", { path := "a.txt", size := 1, modTime := 100,
                     isDir := false, hash := "" })]
        [("a.txt", { path := "a.txt", size := 1, modTime := 100,
                     isDir := false, hash := "" })]
        "/local" "/remote" = { upload := [], download := [], delete := [] } :=
  plan_empty_of_identical true _ _ _ "/local" "/remote"
    (by
      constructor <;>
        (intro e he
         simp only [List.mem_singleton] at he
         subst he
         exact ⟨_, rfl, rfl, rfl⟩))
    (Or.inl rfl)

/-- Claim C4: in incremental mode with a direction that includes to-remote,
a local record (a regular file, under the Go-map uniqueness of keys) is
queued for upload exactly when no remote record shares its relative path, or
the local modification time is strictly newer than the remote's, or the
sizes differ. -/
theorem incremental_upload_iff (opts : SyncOptions) (l r : Inventory)
    (lb rb : String) (relPath : String) (localFile : FileInfo)
    (hdir : opts.direction = .toRemote ∨ opts.direction = .both)
    (hnd : (List.map Prod.fst l).Nodup)
    (hmem : (relPath, localFile) ∈ l)
    (hfile : localFile.isDir = false) :
    (∃ it ∈ (calculateSyncPlan true opts l r lb rb).upload,
        it.localPath = joinPath lb relPath) ↔
      (lookupFile r relPath = none ∨
        ∃ g, lookupFile r relPath = some g ∧
          (g.modTime < localFile.modTime ∨ localFile.size ≠ g.size)) := by
  constructor
  · rintro ⟨it, hit, hpath⟩
    simp only [calculateSyncPlan] at hit
    rw [mem_planUploads_iff] at hit
    obtain ⟨-, e, he, heq⟩ := hit
    rw [uploadItemFor_eq_some_iff] at heq
    obtain ⟨-, hsu, hiteq⟩ := heq
    rw [hiteq] at hpath
    have hkey : e.1 = relPath := joinPath_right_inj hpath
    have he' : (relPath, e.2) ∈ l := by rw [← hkey]; exact he
    have hsame : e.2 = localFile := entry_unique hnd he' hmem
    rw [hkey, hsame] at hsu
    cases hlook : lookupFile r relPath with
    | none => exact Or.inl rfl
    | some g =>
      refine Or.inr ⟨g, rfl, ?_⟩
      rw [hlook] at hsu
      simpa [shouldUpload] using hsu
  · intro hcond
    refine ⟨{ localPath := joinPath lb relPath,
              remotePath := joinPath rb relPath,
              size := localFile.size, action := "upload" }, ?_, rfl⟩
    simp only [calculateSyncPlan]
    rw [mem_planUploads_iff]
    refine ⟨hdir, (relPath, localFile), hmem, ?_⟩
    rw [uploadItemFor_eq_some_iff]
    refine ⟨hfile, ?_, rfl⟩
    rcases hcond with hnone | ⟨g, hg, hcase⟩
    · rw [hnone]; rfl
    · rw [hg]
      simpa [shouldUpload] using hcase

/-- Witness for C4 at a concrete input: a single local file absent remotely
is queued; the condition's left disjunct holds. -/
theorem incremental_upload_iff_witness :
    ((∃ it ∈ (calculateSyncPlan true
        { direction := .toRemote, dryRun := false, force := false,
          verbose := false, progress := false, deleteExtra := false }
        [("a.txt", { path := "a.txt", size := 1, modTime := 100,
                     isDir := false, hash := "" })]
        [] "/local" "/remote").upload,
        it.localPath = joinPath "/local" "a.txt") ↔
      (lookupFile [] "a.txt" = none ∨
        ∃ g, lookupFile [] "a.txt" = some g ∧
          (g.modTime < 100 ∨ (1 : Int) ≠ g.size))) :=
  incremental_upload_iff _ _ [] "/local" "/remote" "a.txt"
    { path := "a.txt", size := 1, modTime := 100, isDir := false, hash := "" }
    (Or.inl rfl) (by decide) (by decide) rfl

/-- Claim C5 (amended): an upload item and a delete item never share a
remote path — upload paths exist in the local inventory while delete paths
do not; the full three-way disjointness of the original claim fails, since
upload and download can both be queued for one path (bidirectional
double-fire), which the caller must treat as a conflict. -/
theorem upload_delete_disjoint (incremental : Bool) (opts : SyncOptions)
    (l r : Inventory) (lb rb : String) (u d : SyncItem)
    (hu : u ∈ (calculateSyncPlan incremental opts l r lb rb).upload)
    (hd : d ∈ (calculateSyncPlan incremental opts l r lb rb).delete) :
    u.remotePath ≠ d.remotePath := by
  simp only [calculateSyncPlan] at hu hd
  rw [mem_planUploads_iff] at hu
  rw [mem_planDeletes_iff] at hd
  obtain ⟨-, e, he, heq⟩ := hu
  obtain ⟨-, e', he', heq'⟩ := hd
  rw [uploadItemFor_eq_some_iff] at heq
  rw [deleteItemFor_eq_some_iff] at heq'
  obtain ⟨-, -, hueq⟩ := heq
  obtain ⟨hlook, hdeq⟩ := heq'
  intro hcontra
  rw [hueq, hdeq] at hcontra
  have hkey : e.1 = e'.1 := joinPath_right_inj hcontra
  have hsome := lookupFile_isSome_of_mem he
  rw [hkey, hlook] at hsome
  simp at hsome

/-- Witness for the amended C5 at a concrete input: a local-only file is
uploaded while a remote-only file is deleted; their remote paths differ. -/
theorem upload_delete_disjoint_witness :
    SyncItem.remotePath
        { localPath := "/local/a.txt", remotePath := "/remote/a.txt",
          size := 1, action := "upload" } ≠
      SyncItem.remotePath
        { localPath := "", remotePath := "/remote/b.txt",
          size := 2, action := "delete_remote" } :=
  upload_delete_disjoint true
    { direction := .toRemote, dryRun := false, force := false,
      verbose := false, progress := false, deleteExtra := true }
    [("a.txt", { path := "a.txt", size := 1, modTime := 100,
                 isDir := false, hash := "" })]
    [("b.txt", { path := "b.txt", size := 2, modTime := 100,
                 isDir := false, hash := "" })]
    "/local" "/remote" _ _ (by decide) (by decide)

/-- Claim C6: with the dry-run option set, a sync run issues no transport
operation for plan items — the trace is exactly the two inventory-setup
commands (`mkdir -p` and the `find` listing) and contains no upload, no
download and no remote-delete command; the plan executor is never invoked. -/
theorem dry_run_no_plan_ops (incremental : Bool) (excl : List String)
    (opts : SyncOptions) (connected : Bool)
    (localScan : Except String Inventory) (mkdirOk : Bool)
    (findResult : Except String String) (oracle : TransportOp → Bool)
    (lp rp : String) (res : SyncResult) (tr : List TransportOp)
    (hdry : opts.dryRun = true)
    (hok : syncDirectory incremental excl opts connected localScan mkdirOk
        findResult oracle lp rp = .ok (res, tr)) :
    tr = [.execCommand (.mkdirP rp), .execCommand (.findListing rp)] ∧
      ∀ op ∈ tr, (∀ a b, op ≠ .uploadFile a b) ∧
        (∀ a b, op ≠ .downloadFile a b) ∧
        (∀ p, op ≠ .execCommand (.rmF p)) := by
  unfold syncDirectory at hok
  cases connected
  · simp at hok
  · cases mkdirOk
    · simp at hok
    · cases localScan with
      | error e => simp at hok
      | ok localFiles =>
        obtain ⟨remoteFiles, hscan⟩ :
            ∃ inv, scanRemoteFiles excl findResult = .ok inv := by
          cases findResult <;> exact ⟨_, rfl⟩
        rw [hscan] at hok
        rw [hdry] at hok
        simp only [Bool.not_true, Bool.false_eq_true, if_false, if_true,
          Except.ok.injEq, Prod.mk.injEq] at hok
        obtain ⟨-, htr⟩ := hok
        subst htr
        refine ⟨rfl, ?_⟩
        intro op hop
        simp only [List.mem_cons, List.not_mem_nil, or_false] at hop
        rcases hop with rfl | rfl <;>
          exact ⟨fun a b => by simp, fun a b => by simp, fun p => by simp⟩

/-- Witness for C6 at a concrete dry run. -/
theorem dry_run_no_plan_ops_witness :
    ([TransportOp.execCommand (.mkdirP "/remote"),
      TransportOp.execCommand (.findListing "/remote")] =
        [TransportOp.execCommand (.mkdirP "/remote"),
         TransportOp.execCommand (.findListing "/remote")]) ∧
      ∀ op ∈ [TransportOp.execCommand (.mkdirP "/remote"),
              TransportOp.execCommand (.findListing "/remote")],
        (∀ a b, op ≠ .uploadFile a b) ∧ (∀ a b, op ≠ .downloadFile a b) ∧
          (∀ p, op ≠ .execCommand (.rmF p)) :=
  dry_run_no_plan_ops true []
    { direction := .toRemote, dryRun := true, force := false,
      verbose := false, progress := false, deleteExtra := false }
    true
    (.ok [("a.txt", { path := "a.txt", size := 1, modTime := 100,
                      isDir := false, hash := "" })])
    true (.ok "") (fun _ => true) "/local" "/remote"
    { totalFiles := 1, uploadedFiles := 0, downloadFiles := 0,
      deletedFiles := 0, skippedFiles := 0, errorFiles := 0,
      totalSize := 0, errors := [] }
    [TransportOp.execCommand (.mkdirP "/remote"),
     TransportOp.execCommand (.findListing "/remote")]
    rfl rfl

/-- Claim C9: every successfully returned sync-run result has
`SkippedFiles = 0` — the field exists on the result type but no operation of
the engine ever increments it, for any plan and any pattern of per-item
outcomes. -/
theorem sync_run_skipped_zero (incremental : Bool) (excl : List String)
    (opts : SyncOptions) (connected : Bool)
    (localScan : Except String Inventory) (mkdirOk : Bool)
    (findResult : Except String String) (oracle : TransportOp → Bool)
    (lp rp : String) (res : SyncResult) (tr : List TransportOp)
    (hok : syncDirectory incremental excl opts connected localScan mkdirOk
        findResult oracle lp rp = .ok (res, tr)) :
    res.skippedFiles = 0 := by
  unfold syncDirectory at hok
  cases connected
  · simp at hok
  · cases mkdirOk
    · simp at hok
    · cases localScan with
      | error e => simp at hok
      | ok localFiles =>
        obtain ⟨remoteFiles, hscan⟩ :
            ∃ inv, scanRemoteFiles excl findResult = .ok inv := by
          cases findResult <;> exact ⟨_, rfl⟩
        rw [hscan] at hok
        by_cases hdry : opts.dryRun
        · rw [hdry] at hok
          simp only [Bool.not_true, Bool.false_eq_true, if_false, if_true,
            Except.ok.injEq, Prod.mk.injEq] at hok
          obtain ⟨hres, -⟩ := hok
          rw [← hres]
        · simp only [Bool.not_true, Bool.false_eq_true, Bool.not_false,
            if_false, if_true, hdry, Except.ok.injEq, Prod.mk.injEq,
            executeSyncPlan] at hok
          obtain ⟨hres, -⟩ := hok
          rw [← hres]
          rw [(runDeletes_spec _ _ _).2.2.1, (runDownloads_spec _ _ _).2.2.1,
            (runUploads_spec _ _ _).2.2.1]

/-- Witness for C9 at a concrete non-dry run whose single upload fails. -/
theorem sync_run_skipped_zero_witness :
    SyncResult.skippedFiles
      { totalFiles := 1, uploadedFiles := 0, downloadFiles := 0,
        deletedFiles := 0, skippedFiles := 0, errorFiles := 1,
        totalSize := 0, errors := ["upload failed: /local/a.txt"] } = 0 :=
  sync_run_skipped_zero true []
    { direction := .toRemote, dryRun := false, force := false,
      verbose := false, progress := false, deleteExtra := false }
    true
    (.ok [("a.txt", { path := "a.txt", size := 1, modTime := 100,
                      isDir := false, hash := "" })])
    true (.ok "") (fun _ => false) "/local" "/remote"
    { totalFiles := 1, uploadedFiles := 0, downloadFiles := 0,
      deletedFiles := 0, skippedFiles := 0, errorFiles := 1,
      totalSize := 0, errors := ["upload failed: /local/a.txt"] }
    [.execCommand (.mkdirP "/remote"), .execCommand (.findListing "/remote"),
     .uploadFile "/local/a.txt" "/remote/a.txt"]
    rfl

end Synccli
